import Mathlib

/-!
Verification of the Patex gas-value accounting core (gas tracker, slot codec,
distribution algorithm), shallowly embedded from the Go source.

Machine integers: `uint64` quantities are `Nat` with explicit `% 2 ^ 64` at the
operations that can wrap; `math/big.Int` quantities are `Int` (arbitrary
precision, possibly negative).  Fallible / panicking code returns `Option`.
-/

namespace PatexGas

/-- Contract addresses (`common.Address`); modelled as natural numbers, only
equality of addresses is used by the core. -/
abbrev Addr := Nat

/-- Storage slot keys.  Modelled from the spec: `crypto.Keccak256Hash` (used by
`getHash`) is an external, opaque collision-resistant hash whose code is not in
`src/`; the spec (§4.2, §1) treats it as an injective key derivation, so a slot
is modelled by its preimage, the pair of the address bytes and the domain
string. -/
abbrev Slot := Addr × String

/-- Modelled from the spec: `params.PatexBaseFeeRecipient` (the default
recipient account) is an external constant whose value is not in `src/`;
modelled as a distinguished address. -/
def PatexBaseFeeRecipient : Addr := 2 ^ 160

/-- Modelled from the spec: `params.PatexGasAddress` (the claims-escrow /
predeploy system account) is an external constant whose value is not in
`src/`; modelled as a distinguished address distinct from the default
recipient. -/
def PatexGasAddress : Addr := 2 ^ 160 + 1

/-- The persisted accrual record (`GasParameters` in the source): opt-in flag,
last-update timestamp, accrued wei balance and ether-seconds accumulator.  The
three numeric fields are `big.Int` in the source, hence `Int` here. -/
structure GasParameters where
  mode : Bool
  lastUpdated : Int
  etherBalance : Int
  etherSeconds : Int
deriving DecidableEq, Repr

/-- The ephemeral per-execution gas ledger (`GasTracker`): a map from address
to attributed gas, represented as an association list with unique keys, plus
the running total.  Both numeric quantities are `uint64` in the source. -/
structure GasTracker where
  allocations : List (Addr × Nat)
  gasUsed : Nat
deriving DecidableEq, Repr

/-- Modelled from the spec: the external `StateDB` storage capability (§6):
per-account balances and 32-byte storage cells addressed by (account, slot).
Cells of a fresh state are all-zero; balances start at zero. -/
structure StateDB where
  balances : Addr → Int
  storage : Addr → Slot → List Nat

/-- Modulus of `uint64` arithmetic. -/
def U64 : Nat := 2 ^ 64

/-- Map lookup in an association list, with Go map semantics: a missing key
reads as the zero value. -/
def lookupAlloc : List (Addr × Nat) → Addr → Nat
  | [], _ => 0
  | (a, v) :: rest, addr => if addr = a then v else lookupAlloc rest addr

/-- Map assignment in an association list: overwrite the first binding of the
key, or append a new binding (Go map assignment). -/
def setAlloc : List (Addr × Nat) → Addr → Nat → List (Addr × Nat)
  | [], addr, v => [(addr, v)]
  | (a, w) :: rest, addr, v =>
      if addr = a then (addr, v) :: rest else (a, w) :: setAlloc rest addr v

/-- Go source `GetGasUsedByContract`: read a contract's attributed gas. -/
def GetGasUsedByContract (gtm : GasTracker) (address : Addr) : Nat :=
  lookupAlloc gtm.allocations address

/-- Go source `GetGasUsed`: read the total attributed gas. -/
def GetGasUsed (gtm : GasTracker) : Nat :=
  gtm.gasUsed

/-- Go source `UseGas`: add `amount` to the total and to the address's
allocation; both additions are `uint64` and wrap modulo `2 ^ 64`. -/
def UseGas (gtm : GasTracker) (address : Addr) (amount : Nat) : GasTracker :=
  { gasUsed := (gtm.gasUsed + amount) % U64,
    allocations :=
      setAlloc gtm.allocations address
        ((lookupAlloc gtm.allocations address + amount) % U64) }

/-- Go source `RefundGas`: panic (modelled as `none`) when `amount` exceeds the
total or the address's allocation, otherwise subtract it from both.  The
sanity check precedes every mutation in the source, so the abort leaves the
ledger untouched. -/
def RefundGas (gtm : GasTracker) (address : Addr) (amount : Nat) :
    Option GasTracker :=
  if gtm.gasUsed < amount ∨ lookupAlloc gtm.allocations address < amount then
    none
  else
    some { gasUsed := gtm.gasUsed - amount,
           allocations :=
             setAlloc gtm.allocations address
               (lookupAlloc gtm.allocations address - amount) }

/-- Go source `NewGasTracker`: fresh ledger with an empty map and zero total. -/
def NewGasTracker : GasTracker :=
  { allocations := [], gasUsed := 0 }

/-- Big-endian encoding of a natural number into exactly `w` bytes (the
zero-extended layout produced by `big.Int.FillBytes` when the value fits). -/
def natToBytesBE : Nat → Nat → List Nat
  | 0, _ => []
  | w + 1, n => natToBytesBE w (n / 256) ++ [n % 256]

/-- Big-endian decoding of a byte list into a natural number
(`big.Int.SetBytes`). -/
def bytesToNatBE (bs : List Nat) : Nat :=
  bs.foldl (fun acc b => acc * 256 + b) 0

/-- Go library `big.Int.FillBytes` on a `w`-byte buffer: panics (`none`) when
the absolute value does not fit in `w` bytes, otherwise writes the absolute
value zero-extended big-endian. -/
def fillBytesBE (w : Nat) (x : Int) : Option (List Nat) :=
  if x.natAbs < 256 ^ w then some (natToBytesBE w x.natAbs) else none

/-- Go source `pack`: serialize a record into 32 bytes — mode byte (0 or 1),
then 12 bytes of balance, 15 bytes of ether-seconds, 4 bytes of timestamp;
panics (`none`) when a field does not fit its width. -/
def pack (params : GasParameters) : Option (List Nat) :=
  match fillBytesBE 12 params.etherBalance, fillBytesBE 15 params.etherSeconds,
      fillBytesBE 4 params.lastUpdated with
  | some balanceBytes, some secondsBytes, some updatedBytes =>
      some (((if params.mode then [1] else [0]) ++ balanceBytes ++
        secondsBytes) ++ updatedBytes)
  | _, _, _ => none

/-- Sequential byte reader used by `unpack`.  Modelled from the spec: the
source of `newSolidityInput`/`consumeBytes` is not in `src/`; §4.3 fixes the
layout as contiguous fields consumed in order, so `consumeBytes n` splits off
the next `n` bytes and fails when fewer remain. -/
def consumeBytes (input : List Nat) (n : Nat) : Option (List Nat × List Nat) :=
  if n ≤ input.length then some (input.take n, input.drop n) else none

/-- Go source `unpack`: reject inputs that are not exactly 32 bytes, then read
the mode byte (nonzero means opted in) and the three big-endian fields. -/
def unpack (params : List Nat) : Option GasParameters :=
  if params.length ≠ 32 then none
  else do
    let (rawGasMode, rest1) ← consumeBytes params 1
    let gasMode := rawGasMode.headD 0 != 0
    let (rawEtherBytes, rest2) ← consumeBytes rest1 12
    let etherBalance : Int := (bytesToNatBE rawEtherBytes : Nat)
    let (rawEtherSecondsBytes, rest3) ← consumeBytes rest2 15
    let etherSeconds : Int := (bytesToNatBE rawEtherSecondsBytes : Nat)
    let (rawLastUpdatedBytes, _rest4) ← consumeBytes rest3 4
    let lastUpdated : Int := (bytesToNatBE rawLastUpdatedBytes : Nat)
    some { mode := gasMode, lastUpdated := lastUpdated,
           etherBalance := etherBalance, etherSeconds := etherSeconds }

/-- Go source `getHash`: keyed hash of the address bytes concatenated with the
domain string; modelled as the (injective) pair, see `Slot`. -/
def getHash (addr : Addr) (app : String) : Slot :=
  (addr, app)

/-- Go source `getContractStorageSlot`: the slot of a contract's record. -/
def getContractStorageSlot (contractAddress : Addr) : Slot :=
  getHash contractAddress "parameters"

/-- Go library `common.BytesToHash`: left-pad with zeros (or keep the last 32
bytes) so the result is exactly 32 bytes. -/
def BytesToHash (b : List Nat) : List Nat :=
  if b.length ≤ 32 then List.replicate (32 - b.length) 0 ++ b
  else b.drop (b.length - 32)

/-- StateDB `GetState`: read the 32-byte cell at (account, slot). -/
def GetState (s : StateDB) (account : Addr) (slot : Slot) : List Nat :=
  s.storage account slot

/-- StateDB `SetState`: overwrite the cell at (account, slot). -/
def SetState (s : StateDB) (account : Addr) (slot : Slot) (value : List Nat) :
    StateDB :=
  { s with storage := fun a sl =>
      if a = account ∧ sl = slot then value else s.storage a sl }

/-- StateDB `AddBalance`: credit an account balance. -/
def AddBalance (s : StateDB) (account : Addr) (amount : Int) : StateDB :=
  { s with balances := fun a =>
      if a = account then s.balances a + amount else s.balances a }

/-- Go source `readGasParameters`: decode the record stored at the contract's
slot under the system account; the source panics (`none`) when `unpack`
fails. -/
def readGasParameters (state : StateDB) (contractAddress : Addr) :
    Option GasParameters :=
  unpack (GetState state PatexGasAddress
    (getContractStorageSlot contractAddress))

/-- Go source `updateGasParameters`: encode the record (panicking `pack`
modelled as `none`) and store it at the contract's slot. -/
def updateGasParameters (state : StateDB) (contractAddress : Addr)
    (gasParameters : GasParameters) : Option StateDB :=
  match pack gasParameters with
  | none => none
  | some byteArray =>
      some (SetState state PatexGasAddress
        (getContractStorageSlot contractAddress) (BytesToHash byteArray))

/-- The record update performed by `updateGasPredeploy` before writing back:
ether-seconds grows by the pre-update balance times the elapsed time, the
balance grows by the fee, and the timestamp is replaced. -/
def accrueRecord (gasParameters : GasParameters) (fee timestamp : Int) :
    GasParameters :=
  { mode := gasParameters.mode,
    lastUpdated := timestamp,
    etherBalance := gasParameters.etherBalance + fee,
    etherSeconds := gasParameters.etherSeconds +
      gasParameters.etherBalance * (timestamp - gasParameters.lastUpdated) }

/-- Go source `updateGasPredeploy`: apply `accrueRecord` and write back. -/
def updateGasPredeploy (state : StateDB) (contractAddress : Addr)
    (fee : Int) (timestamp : Int) (gasParameters : GasParameters) :
    Option StateDB :=
  updateGasParameters state contractAddress
    (accrueRecord gasParameters fee timestamp)

/-- One iteration of the allocation loop of `AllocateDevGas` (lines 59-80 of
the source), over the running `(state, totalGasAccount, accumulatedGas)`
triple; `none` propagates a panic from `readGasParameters` or `pack`. -/
def allocStep (remainingGas netGas : Nat) (gasPrice : Int)
    (blockTimestamp : Int) (acc : Option (StateDB × Nat × Nat))
    (entry : Addr × Nat) : Option (StateDB × Nat × Nat) :=
  match acc with
  | none => none
  | some (state, totalGasAccount, accumulatedGas) =>
    let scaledGasUnits := remainingGas * entry.2 / netGas
    let totalGasAccount1 := totalGasAccount + scaledGasUnits
    match readGasParameters state entry.1 with
    | none => none
    | some gasParameters =>
      if gasParameters.mode = false then
        some (state, totalGasAccount1, accumulatedGas)
      else
        let accumulatedGas1 := accumulatedGas + scaledGasUnits
        let fee := (scaledGasUnits : Int) * gasPrice
        if 0 < fee then
          match updateGasPredeploy state entry.1 fee blockTimestamp
              gasParameters with
          | none => none
          | some state1 => some (state1, totalGasAccount1, accumulatedGas1)
        else
          some (state, totalGasAccount1, accumulatedGas1)

/-- Go source `AllocateDevGas`: the distribution algorithm.  Returns the
(unmodified) ledger together with the final state, or `none` on any of the
fatal aborts (codec panic inside the loop, or the gas-accounting-inflation
sanity check). -/
def AllocateDevGas (gtm : GasTracker) (gasPrice : Int) (refund : Nat)
    (state : StateDB) (timestamp : Nat) : Option (GasTracker × StateDB) :=
  if gtm.gasUsed = 0 ∨ gtm.gasUsed ≤ refund then some (gtm, state)
  else
    let remainingGas := gtm.gasUsed - refund
    let netGas := gtm.gasUsed
    match gtm.allocations.foldl
        (allocStep remainingGas netGas gasPrice (timestamp : Int))
        (some (state, 0, 0)) with
    | none => none
    | some (state1, totalGasAccount, accumulatedGas) =>
      if remainingGas < totalGasAccount then none
      else
        let patexGasUnits : Int := (remainingGas : Int) - (accumulatedGas : Int)
        let patexGas := patexGasUnits * gasPrice
        let state2 := AddBalance state1 PatexBaseFeeRecipient patexGas
        let claimableGasToAdd := (accumulatedGas : Int) * gasPrice
        some (gtm, AddBalance state2 PatexGasAddress claimableGasToAdd)

/-- A ledger operation: one `UseGas` or `RefundGas` call. -/
inductive LedgerOp where
  | use (address : Addr) (amount : Nat)
  | refund (address : Addr) (amount : Nat)
deriving DecidableEq, Repr

/-- The address an operation touches. -/
def LedgerOp.addr : LedgerOp → Addr
  | .use a _ => a
  | .refund a _ => a

/-- Apply one ledger operation; `none` is the refund panic. -/
def applyOp (gtm : GasTracker) : LedgerOp → Option GasTracker
  | .use a n => some (UseGas gtm a n)
  | .refund a n => RefundGas gtm a n

/-- Apply a sequence of ledger operations from a given tracker. -/
def applyOps (ops : List LedgerOp) (gtm : GasTracker) : Option GasTracker :=
  ops.foldl (fun acc op => acc.bind (fun t => applyOp t op)) (some gtm)

/-- Sum of the per-address allocation values of a ledger map. -/
def sumAllocs (l : List (Addr × Nat)) : Nat :=
  (l.map Prod.snd).sum

/-- A fresh `StateDB`: all balances zero, all cells 32 zero bytes (the state
the tests build from an empty in-memory database). -/
def freshState : StateDB :=
  { balances := fun _ => 0, storage := fun _ _ => List.replicate 32 0 }

/-- Test helper `setGasMode` (from the repository's tests): read-modify-write
of the opt-in flag. -/
def setGasMode (state : StateDB) (contractAddress : Addr) (mode : Int) :
    Option StateDB :=
  match readGasParameters state contractAddress with
  | none => none
  | some gasParameters =>
      updateGasParameters state contractAddress
        { gasParameters with mode := 0 < mode }

/-! ## Codec lemmas -/

theorem natToBytesBE_length (w n : Nat) : (natToBytesBE w n).length = w := by
  induction w generalizing n with
  | zero => rfl
  | succ w ih => simp [natToBytesBE, ih]

theorem bytesToNatBE_append_singleton (xs : List Nat) (b : Nat) :
    bytesToNatBE (xs ++ [b]) = bytesToNatBE xs * 256 + b := by
  simp [bytesToNatBE, List.foldl_append]

theorem bytesToNatBE_natToBytesBE (w n : Nat) (h : n < 256 ^ w) :
    bytesToNatBE (natToBytesBE w n) = n := by
  induction w generalizing n with
  | zero =>
      interval_cases n
      rfl
  | succ w ih =>
      rw [natToBytesBE, bytesToNatBE_append_singleton, ih (n / 256) ?_]
      · omega
      · rw [Nat.div_lt_iff_lt_mul (by norm_num)]
        calc n < 256 ^ (w + 1) := h
          _ = 256 ^ w * 256 := by rw [pow_succ]

theorem consumeBytes_append {n : Nat} (xs ys : List Nat) (h : xs.length = n) :
    consumeBytes (xs ++ ys) n = some (xs, ys) := by
  subst h
  rw [consumeBytes, if_pos (by simp), List.take_left, List.drop_left]

theorem consumeBytes_all {n : Nat} (xs : List Nat) (h : xs.length = n) :
    consumeBytes xs n = some (xs, []) := by
  have := consumeBytes_append xs [] h
  simpa using this

theorem pack_eq_some (x : GasParameters)
    (h1 : x.etherBalance.natAbs < 256 ^ 12)
    (h2 : x.etherSeconds.natAbs < 256 ^ 15)
    (h3 : x.lastUpdated.natAbs < 256 ^ 4) :
    pack x = some (((if x.mode then [1] else [0]) ++
      natToBytesBE 12 x.etherBalance.natAbs ++
      natToBytesBE 15 x.etherSeconds.natAbs) ++
      natToBytesBE 4 x.lastUpdated.natAbs) := by
  rw [pack, fillBytesBE, if_pos h1, fillBytesBE, if_pos h2, fillBytesBE,
    if_pos h3]

theorem unpack_parts (m b s l : List Nat) (hm : m.length = 1)
    (hb : b.length = 12) (hs : s.length = 15) (hl : l.length = 4) :
    unpack ((m ++ b ++ s) ++ l) =
      some { mode := m.headD 0 != 0,
             lastUpdated := (bytesToNatBE l : Nat),
             etherBalance := (bytesToNatBE b : Nat),
             etherSeconds := (bytesToNatBE s : Nat) } := by
  have hassoc : (m ++ b ++ s) ++ l = m ++ (b ++ (s ++ l)) := by
    simp [List.append_assoc]
  have h32 : ((m ++ b ++ s) ++ l).length = 32 := by
    simp [List.length_append, hm, hb, hs, hl]
  have e1 : consumeBytes ((m ++ b ++ s) ++ l) 1 = some (m, b ++ (s ++ l)) := by
    rw [hassoc]; exact consumeBytes_append m _ hm
  have e2 : consumeBytes (b ++ (s ++ l)) 12 = some (b, s ++ l) :=
    consumeBytes_append b _ hb
  have e3 : consumeBytes (s ++ l) 15 = some (s, l) :=
    consumeBytes_append s _ hs
  have e4 : consumeBytes l 4 = some (l, []) := consumeBytes_all l hl
  rw [unpack, if_neg (by rw [h32]; exact fun hc => hc rfl)]
  rw [e1]
  simp only [Option.bind_some, Option.some_bind, bind, e2, e3, e4]

theorem pack_unpack (x : GasParameters)
    (hb0 : 0 ≤ x.etherBalance) (hb : x.etherBalance < 2 ^ 96)
    (hs0 : 0 ≤ x.etherSeconds) (hs : x.etherSeconds < 2 ^ 120)
    (hl0 : 0 ≤ x.lastUpdated) (hl : x.lastUpdated < 2 ^ 32) :
    (pack x).bind unpack = some x := by
  have hb' : x.etherBalance.natAbs < 256 ^ 12 := by
    have : ((256 : Nat) ^ 12 : Int) = 2 ^ 96 := by norm_num
    omega
  have hs' : x.etherSeconds.natAbs < 256 ^ 15 := by
    have : ((256 : Nat) ^ 15 : Int) = 2 ^ 120 := by norm_num
    omega
  have hl' : x.lastUpdated.natAbs < 256 ^ 4 := by
    have : ((256 : Nat) ^ 4 : Int) = 2 ^ 32 := by norm_num
    omega
  rw [pack_eq_some x hb' hs' hl', Option.some_bind]
  rw [unpack_parts _ _ _ _ (by cases x.mode <;> rfl) (natToBytesBE_length _ _)
    (natToBytesBE_length _ _) (natToBytesBE_length _ _)]
  obtain ⟨mo, lu, bal, es⟩ := x
  simp only at hb' hs' hl' hb0 hs0 hl0
  congr 1
  cases mo <;>
    simp [bytesToNatBE_natToBytesBE _ _ hb', bytesToNatBE_natToBytesBE _ _ hs',
      bytesToNatBE_natToBytesBE _ _ hl', Int.natAbs_of_nonneg, hb0, hs0, hl0]

theorem fillBytesBE_eq_none (w : Nat) (x : Int) :
    fillBytesBE w x = none ↔ 256 ^ w ≤ x.natAbs := by
  rw [fillBytesBE]
  split_ifs with h <;> simp <;> omega

theorem pack_length (x : GasParameters) (bs : List Nat)
    (h : pack x = some bs) : bs.length = 32 := by
  rw [pack] at h
  rcases h1 : fillBytesBE 12 x.etherBalance with _ | b1 <;> rw [h1] at h <;>
    rcases h2 : fillBytesBE 15 x.etherSeconds with _ | b2 <;> rw [h2] at h <;>
      rcases h3 : fillBytesBE 4 x.lastUpdated with _ | b3 <;> rw [h3] at h <;>
        simp at h
  have e1 : b1.length = 12 := by
    rw [fillBytesBE] at h1; split_ifs at h1; cases h1; exact natToBytesBE_length _ _
  have e2 : b2.length = 15 := by
    rw [fillBytesBE] at h2; split_ifs at h2; cases h2; exact natToBytesBE_length _ _
  have e3 : b3.length = 4 := by
    rw [fillBytesBE] at h3; split_ifs at h3; cases h3; exact natToBytesBE_length _ _
  rw [← h]
  cases x.mode <;> simp [List.length_append, e1, e2, e3]

theorem pack_eq_none_iff (x : GasParameters) :
    pack x = none ↔ 256 ^ 12 ≤ x.etherBalance.natAbs ∨
      256 ^ 15 ≤ x.etherSeconds.natAbs ∨ 256 ^ 4 ≤ x.lastUpdated.natAbs := by
  rw [← fillBytesBE_eq_none, ← fillBytesBE_eq_none, ← fillBytesBE_eq_none]
  rw [pack]
  rcases h1 : fillBytesBE 12 x.etherBalance with _ | b1 <;>
    rcases h2 : fillBytesBE 15 x.etherSeconds with _ | b2 <;>
      rcases h3 : fillBytesBE 4 x.lastUpdated with _ | b3 <;> simp

/-- Claim C2: decoding the encoding of any accrual record whose fields are
within bounds (balance below `2^96`, value-seconds below `2^120`, timestamp
below `2^32`, all non-negative as the data model requires) returns the record
itself. -/
theorem codec_round_trip (x : GasParameters)
    (hb0 : 0 ≤ x.etherBalance) (hb : x.etherBalance < 2 ^ 96)
    (hs0 : 0 ≤ x.etherSeconds) (hs : x.etherSeconds < 2 ^ 120)
    (hl0 : 0 ≤ x.lastUpdated) (hl : x.lastUpdated < 2 ^ 32) :
    (pack x).bind unpack = some x :=
  pack_unpack x hb0 hb hs0 hs hl0 hl

/-- Witness for C2 at a concrete record. -/
theorem codec_round_trip_witness :
    (pack { mode := true, lastUpdated := 300, etherBalance := 100,
            etherSeconds := 200 }).bind unpack =
      some { mode := true, lastUpdated := 300, etherBalance := 100,
             etherSeconds := 200 } :=
  codec_round_trip _ (by norm_num) (by norm_num) (by norm_num) (by norm_num)
    (by norm_num) (by norm_num)

/-- Claim C3: `pack` fails (the fatal `FillBytes` panic) exactly when a field
exceeds its allotted width — balance at least `2^96`, value-seconds at least
`2^120`, or timestamp at least `2^32` — and every successful encoding has
exactly 32 bytes; in particular the record holding the exact boundary values
`2^96 - 1`, `2^120 - 1`, `2^32 - 1` encodes successfully. -/
theorem pack_overflow_spec (x : GasParameters)
    (hb0 : 0 ≤ x.etherBalance) (hs0 : 0 ≤ x.etherSeconds)
    (hl0 : 0 ≤ x.lastUpdated) :
    (pack x = none ↔ 2 ^ 96 ≤ x.etherBalance ∨ 2 ^ 120 ≤ x.etherSeconds ∨
      2 ^ 32 ≤ x.lastUpdated) ∧
    (∀ bs, pack x = some bs → bs.length = 32) ∧
    (∃ bs, pack { mode := x.mode,
                  lastUpdated := 2 ^ 32 - 1,
                  etherBalance := 2 ^ 96 - 1,
                  etherSeconds := 2 ^ 120 - 1 } = some bs ∧
      bs.length = 32) := by
  have e1 : ((256 : Nat) ^ 12 : Int) = 2 ^ 96 := by norm_num
  have e2 : ((256 : Nat) ^ 15 : Int) = 2 ^ 120 := by norm_num
  have e3 : ((256 : Nat) ^ 4 : Int) = 2 ^ 32 := by norm_num
  refine ⟨?_, fun bs h => pack_length x bs h, ?_⟩
  · rw [pack_eq_none_iff]
    omega
  · have hp := pack_eq_some
      { mode := x.mode,
        lastUpdated := 2 ^ 32 - 1,
        etherBalance := 2 ^ 96 - 1,
        etherSeconds := 2 ^ 120 - 1 }
      (by show ((2 : Int) ^ 96 - 1).natAbs < 256 ^ 12; omega)
      (by show ((2 : Int) ^ 120 - 1).natAbs < 256 ^ 15; omega)
      (by show ((2 : Int) ^ 32 - 1).natAbs < 256 ^ 4; omega)
    refine ⟨_, hp, ?_⟩
    cases hm : x.mode <;>
      simp [hm, List.length_append, natToBytesBE_length]

/-- Witness for C3 at a concrete record. -/
theorem pack_overflow_spec_witness :
    (pack { mode := false, lastUpdated := 0, etherBalance := 2 ^ 96,
            etherSeconds := 0 } = none ↔
      2 ^ 96 ≤ (2 ^ 96 : Int) ∨ 2 ^ 120 ≤ (0 : Int) ∨ 2 ^ 32 ≤ (0 : Int)) ∧
    (∀ bs, pack { mode := false, lastUpdated := 0, etherBalance := 2 ^ 96,
                  etherSeconds := 0 } = some bs → bs.length = 32) ∧
    (∃ bs, pack { mode := false,
                  lastUpdated := 2 ^ 32 - 1,
                  etherBalance := 2 ^ 96 - 1,
                  etherSeconds := 2 ^ 120 - 1 } = some bs ∧
      bs.length = 32) :=
  pack_overflow_spec
    { mode := false, lastUpdated := 0, etherBalance := 2 ^ 96,
      etherSeconds := 0 } (by norm_num) (by norm_num) (by norm_num)

/-! ## Ledger lemmas -/

theorem lookupAlloc_setAlloc_self (l : List (Addr × Nat)) (a : Addr) (v : Nat) :
    lookupAlloc (setAlloc l a v) a = v := by
  induction l with
  | nil => simp [setAlloc, lookupAlloc]
  | cons e rest ih =>
      obtain ⟨b, w⟩ := e
      by_cases h : a = b
      · simp [setAlloc, lookupAlloc, h]
      · simp [setAlloc, lookupAlloc, h, ih]

theorem lookupAlloc_setAlloc_ne (l : List (Addr × Nat)) (a b : Addr) (v : Nat)
    (h : b ≠ a) : lookupAlloc (setAlloc l a v) b = lookupAlloc l b := by
  induction l with
  | nil => simp [setAlloc, lookupAlloc, h]
  | cons e rest ih =>
      obtain ⟨c, w⟩ := e
      by_cases hac : a = c
      · subst hac
        simp [setAlloc, lookupAlloc, h]
      · by_cases hbc : b = c <;> simp [setAlloc, lookupAlloc, hac, hbc, ih]

theorem sumAllocs_cons (b : Addr) (w : Nat) (l : List (Addr × Nat)) :
    sumAllocs ((b, w) :: l) = w + sumAllocs l := by
  simp [sumAllocs]

theorem sumAllocs_setAlloc (l : List (Addr × Nat)) (a : Addr) (v : Nat) :
    sumAllocs (setAlloc l a v) + lookupAlloc l a = sumAllocs l + v := by
  induction l with
  | nil => simp [setAlloc, lookupAlloc, sumAllocs]
  | cons e rest ih =>
      obtain ⟨b, w⟩ := e
      by_cases h : a = b
      · simp only [setAlloc, lookupAlloc, if_pos h, sumAllocs_cons]
        omega
      · simp only [setAlloc, lookupAlloc, if_neg h, sumAllocs_cons]
        omega

theorem lookupAlloc_le_sumAllocs (l : List (Addr × Nat)) (a : Addr) :
    lookupAlloc l a ≤ sumAllocs l := by
  induction l with
  | nil => simp [lookupAlloc, sumAllocs]
  | cons e rest ih =>
      obtain ⟨b, w⟩ := e
      rw [sumAllocs_cons]
      by_cases h : a = b
      · simp only [lookupAlloc]
        rw [if_pos h]
        omega
      · simp only [lookupAlloc]
        rw [if_neg h]
        omega

/-- The conservation invariant: the `uint64` total equals the (wrap-around)
`uint64` sum of the allocation values. -/
def ledgerInv (t : GasTracker) : Prop :=
  t.gasUsed = sumAllocs t.allocations % U64

theorem useGas_inv (t : GasTracker) (a : Addr) (n : Nat) (h : ledgerInv t) :
    ledgerInv (UseGas t a n) := by
  unfold ledgerInv at h
  have hset := sumAllocs_setAlloc t.allocations a
    ((lookupAlloc t.allocations a + n) % U64)
  show (t.gasUsed + n) % U64 = sumAllocs (setAlloc t.allocations a
    ((lookupAlloc t.allocations a + n) % U64)) % U64
  have hU : U64 = 18446744073709551616 := rfl
  rw [hU] at h hset ⊢
  omega

theorem refundGas_inv (t : GasTracker) (a : Addr) (n : Nat) (t' : GasTracker)
    (h : ledgerInv t) (hr : RefundGas t a n = some t') : ledgerInv t' := by
  unfold ledgerInv at h
  rw [RefundGas] at hr
  split_ifs at hr with hc
  push_neg at hc
  obtain ⟨hc1, hc2⟩ := hc
  injection hr with hr
  subst hr
  show t.gasUsed - n = sumAllocs (setAlloc t.allocations a
    (lookupAlloc t.allocations a - n)) % U64
  have hset := sumAllocs_setAlloc t.allocations a
    (lookupAlloc t.allocations a - n)
  have hle := lookupAlloc_le_sumAllocs t.allocations a
  have hU : U64 = 18446744073709551616 := rfl
  rw [hU] at h ⊢
  omega

theorem applyOps_none (ops : List LedgerOp) :
    List.foldl (fun acc op => acc.bind (fun t => applyOp t op)) none ops =
      none := by
  induction ops with
  | nil => rfl
  | cons op ops ih => simpa using ih

theorem applyOps_cons (op : LedgerOp) (ops : List LedgerOp) (t : GasTracker) :
    applyOps (op :: ops) t =
      (applyOp t op).bind (fun t1 => applyOps ops t1) := by
  simp only [applyOps, List.foldl_cons, Option.some_bind]
  rcases h : applyOp t op with _ | t1
  · rw [Option.none_bind]
    exact applyOps_none ops
  · rw [Option.some_bind]

theorem applyOps_inv (ops : List LedgerOp) (t t' : GasTracker)
    (h : ledgerInv t) (happ : applyOps ops t = some t') : ledgerInv t' := by
  induction ops generalizing t with
  | nil =>
      rw [applyOps, List.foldl_nil] at happ
      injection happ with happ
      rwa [← happ]
  | cons op ops ih =>
      rw [applyOps_cons] at happ
      rcases hop : applyOp t op with _ | t1
      · rw [hop] at happ; exact absurd happ (by simp)
      · rw [hop] at happ
        rw [Option.some_bind] at happ
        refine ih t1 ?_ happ
        cases op with
        | use a n =>
            rw [applyOp] at hop
            injection hop with hop
            rw [← hop]
            exact useGas_inv t a n h
        | refund a n =>
            exact refundGas_inv t a n t1 h hop

/-- Claim C5: starting from a fresh ledger, after any sequence of `use` /
`refund` calls that never hits the refund abort, the total equals the
(`uint64`, i.e. modulo `2^64`) sum of the per-address allocation values. -/
theorem ledger_conservation (ops : List LedgerOp) (t : GasTracker)
    (h : applyOps ops NewGasTracker = some t) :
    t.gasUsed = sumAllocs t.allocations % U64 :=
  applyOps_inv ops NewGasTracker t rfl h

/-- Witness for C5 on a concrete call sequence. -/
theorem ledger_conservation_witness :
    ({ allocations := [(1, 3), (2, 7)], gasUsed := 10 } : GasTracker).gasUsed =
      sumAllocs [(1, 3), (2, 7)] % U64 :=
  ledger_conservation [.use 1 5, .refund 1 2, .use 2 7]
    { allocations := [(1, 3), (2, 7)], gasUsed := 10 } (by decide)

/-- Claim C4: `RefundGas` aborts exactly when the amount exceeds the total or
the address's allocation; on success it subtracts the amount from both and
changes no other address's allocation; the abort (a Go panic) precedes every
mutation in the source, so an aborting call leaves the ledger as it was. -/
theorem refund_spec (gtm : GasTracker) (a : Addr) (n : Nat) :
    (RefundGas gtm a n = none ↔
      gtm.gasUsed < n ∨ lookupAlloc gtm.allocations a < n) ∧
    (∀ t', RefundGas gtm a n = some t' →
      t'.gasUsed = gtm.gasUsed - n ∧
      lookupAlloc t'.allocations a = lookupAlloc gtm.allocations a - n ∧
      ∀ b, b ≠ a → lookupAlloc t'.allocations b =
        lookupAlloc gtm.allocations b) := by
  unfold RefundGas
  split_ifs with hc
  · exact ⟨by simp [hc], fun t' h => absurd h (by simp)⟩
  · refine ⟨by simp [hc], fun t' h => ?_⟩
    injection h with h
    subst h
    exact ⟨rfl, lookupAlloc_setAlloc_self _ _ _,
      fun b hb => lookupAlloc_setAlloc_ne _ _ _ _ hb⟩

/-- Witness for C4 at concrete ledgers: an aborting call and a successful
call, both read off from `refund_spec`. -/
theorem refund_spec_witness :
    RefundGas { allocations := [(1, 5)], gasUsed := 5 } 1 6 = none ∧
    RefundGas { allocations := [(1, 5)], gasUsed := 5 } 1 2 =
      some { allocations := [(1, 3)], gasUsed := 3 } ∧
    lookupAlloc [(1, 3)] 2 = lookupAlloc [(1, 5)] 2 := by
  refine ⟨(refund_spec { allocations := [(1, 5)], gasUsed := 5 } 1 6).1.mpr
    (by decide), by decide, ?_⟩
  exact ((refund_spec { allocations := [(1, 5)], gasUsed := 5 } 1 2).2
    { allocations := [(1, 3)], gasUsed := 3 } (by decide)).2.2 2 (by decide)

theorem applyOps_lookup (ops : List LedgerOp) (t t' : GasTracker) (a : Addr)
    (havoid : ∀ op ∈ ops, op.addr ≠ a) (happ : applyOps ops t = some t') :
    lookupAlloc t'.allocations a = lookupAlloc t.allocations a := by
  induction ops generalizing t with
  | nil =>
      rw [applyOps, List.foldl_nil] at happ
      injection happ with happ
      rw [← happ]
  | cons op ops ih =>
      rw [applyOps_cons] at happ
      rcases hop : applyOp t op with _ | t1
      · rw [hop] at happ; exact absurd happ (by simp)
      · rw [hop] at happ
        rw [Option.some_bind] at happ
        have hstep : lookupAlloc t1.allocations a =
            lookupAlloc t.allocations a := by
          have hne : op.addr ≠ a := havoid op (by simp)
          cases op with
          | use b n =>
              rw [applyOp] at hop
              injection hop with hop
              rw [← hop]
              exact lookupAlloc_setAlloc_ne _ _ _ _ (fun h => hne h.symm)
          | refund b n =>
              rw [applyOp, RefundGas] at hop
              split_ifs at hop
              injection hop with hop
              rw [← hop]
              exact lookupAlloc_setAlloc_ne _ _ _ _ (fun h => hne h.symm)
        rw [← hstep]
        exact ih t1 (fun o ho => havoid o (by simp [ho])) happ

/-- Claim C10: an address never passed to `use` or `refund` reads as zero via
`GetGasUsedByContract`; in particular every address reads as zero on a fresh
ledger (the empty operation sequence). -/
theorem unused_address_zero (ops : List LedgerOp) (t : GasTracker) (a : Addr)
    (happ : applyOps ops NewGasTracker = some t)
    (havoid : ∀ op ∈ ops, op.addr ≠ a) :
    GetGasUsedByContract t a = 0 := by
  rw [GetGasUsedByContract, applyOps_lookup ops NewGasTracker t a havoid happ]
  rfl

/-- Witness for C10 on a concrete trace avoiding address 2. -/
theorem unused_address_zero_witness :
    GetGasUsedByContract { allocations := [(1, 5)], gasUsed := 5 } 2 = 0 :=
  unused_address_zero [.use 1 5] { allocations := [(1, 5)], gasUsed := 5 } 2
    (by decide) (by decide)

/-! ## Distribution-loop lemmas -/

theorem foldl_allocStep_none (r t : Nat) (p ts : Int)
    (l : List (Addr × Nat)) :
    List.foldl (allocStep r t p ts) none l = none := by
  induction l with
  | nil => rfl
  | cons e l ih => simpa [allocStep] using ih

theorem allocStep_some_tga (r t : Nat) (p ts : Int) (s : StateDB)
    (tga agg : Nat) (e : Addr × Nat) (s1 : StateDB) (tga1 agg1 : Nat)
    (h : allocStep r t p ts (some (s, tga, agg)) e = some (s1, tga1, agg1)) :
    tga1 = tga + r * e.2 / t := by
  simp only [allocStep] at h
  split at h
  · exact absurd h (by simp)
  · split_ifs at h with hm hf
    · simp only [Option.some.injEq, Prod.mk.injEq] at h
      exact h.2.1.symm
    · split at h
      · exact absurd h (by simp)
      · simp only [Option.some.injEq, Prod.mk.injEq] at h
        exact h.2.1.symm
    · simp only [Option.some.injEq, Prod.mk.injEq] at h
      exact h.2.1.symm

theorem foldl_allocStep_tga (r t : Nat) (p ts : Int) :
    ∀ (l : List (Addr × Nat)) (s : StateDB) (tga agg : Nat) (s1 : StateDB)
      (tga1 agg1 : Nat),
      List.foldl (allocStep r t p ts) (some (s, tga, agg)) l =
        some (s1, tga1, agg1) →
      tga1 = tga + (l.map (fun e => r * e.2 / t)).sum := by
  intro l
  induction l with
  | nil =>
      intro s tga agg s1 tga1 agg1 h
      rw [List.foldl_nil] at h
      simp only [Option.some.injEq, Prod.mk.injEq] at h
      simp only [List.map_nil, List.sum_nil, Nat.add_zero]
      exact h.2.1.symm
  | cons e l ih =>
      intro s tga agg s1 tga1 agg1 h
      rw [List.foldl_cons] at h
      rcases hstep : allocStep r t p ts (some (s, tga, agg)) e with _ | trip
      · rw [hstep, foldl_allocStep_none] at h
        exact absurd h (by simp)
      · rw [hstep] at h
        obtain ⟨s2, tga2, agg2⟩ := trip
        have h1 := allocStep_some_tga r t p ts s tga agg e s2 tga2 agg2 hstep
        have h2 := ih s2 tga2 agg2 s1 tga1 agg1 h
        simp only [List.map_cons, List.sum_cons]
        omega

theorem sum_scaled_le (r t : Nat) (l : List (Addr × Nat)) :
    (l.map (fun e => r * e.2 / t)).sum ≤ r * sumAllocs l / t := by
  induction l with
  | nil => simp [sumAllocs]
  | cons e l ih =>
      obtain ⟨b, w⟩ := e
      rw [List.map_cons, List.sum_cons, sumAllocs_cons, Nat.mul_add]
      calc r * w / t + (l.map (fun e => r * e.2 / t)).sum ≤
          r * w / t + r * sumAllocs l / t := by omega
        _ ≤ (r * w + r * sumAllocs l) / t := Nat.add_div_le_add_div _ _ _

/-- Claim C1: under the ledger invariant (`gasUsed` equals the exact sum of
the allocations) and a refund strictly below the total, the per-address
floor shares summed over the whole loop never exceed the net billable gas, so
whenever the allocation loop itself completes, `AllocateDevGas` does not
abort: the step-4 gas-accounting-inflation panic is unreachable. -/
theorem distribute_no_inflation (gtm : GasTracker) (gasPrice : Int)
    (refund : Nat) (state : StateDB) (timestamp : Nat) (s1 : StateDB)
    (tga agg : Nat)
    (hinv : gtm.gasUsed = sumAllocs gtm.allocations)
    (hr : refund < gtm.gasUsed)
    (hloop : gtm.allocations.foldl
      (allocStep (gtm.gasUsed - refund) gtm.gasUsed gasPrice (timestamp : Int))
      (some (state, 0, 0)) = some (s1, tga, agg)) :
    tga ≤ gtm.gasUsed - refund ∧
      AllocateDevGas gtm gasPrice refund state timestamp ≠ none := by
  have h1 := foldl_allocStep_tga (gtm.gasUsed - refund) gtm.gasUsed gasPrice
    (timestamp : Int) gtm.allocations state 0 0 s1 tga agg hloop
  have h2 := sum_scaled_le (gtm.gasUsed - refund) gtm.gasUsed gtm.allocations
  rw [← hinv] at h2
  have h3 : (gtm.gasUsed - refund) * gtm.gasUsed / gtm.gasUsed =
      gtm.gasUsed - refund := Nat.mul_div_cancel _ (by omega)
  have htga : tga ≤ gtm.gasUsed - refund := by omega
  refine ⟨htga, ?_⟩
  simp only [AllocateDevGas]
  rw [if_neg (show ¬(gtm.gasUsed = 0 ∨ gtm.gasUsed ≤ refund) by omega)]
  rw [hloop]
  simp [Nat.not_lt.mpr htga]

/-- Witness for C1 at a concrete ledger satisfying the invariant. -/
theorem distribute_no_inflation_witness :
    5 ≤ 8 - 2 ∧
      AllocateDevGas { allocations := [(1, 3), (2, 5)], gasUsed := 8 } 1 2
        freshState 0 ≠ none :=
  distribute_no_inflation
    { allocations := [(1, 3), (2, 5)], gasUsed := 8 } 1 2 freshState 0
    freshState 5 0 (by decide) (by decide) rfl

/-- Claim C6: when the total gas used is zero or does not exceed the refund,
`AllocateDevGas` returns immediately: the state (every account balance and
every storage cell, hence every persisted accrual record) is unchanged, and
so is the ledger. -/
theorem distribute_noop (gtm : GasTracker) (gasPrice : Int) (refund : Nat)
    (state : StateDB) (timestamp : Nat)
    (h : gtm.gasUsed = 0 ∨ gtm.gasUsed ≤ refund) :
    AllocateDevGas gtm gasPrice refund state timestamp = some (gtm, state) := by
  rw [AllocateDevGas, if_pos h]

/-- Witness for C6 at a concrete fully-refunded ledger. -/
theorem distribute_noop_witness :
    AllocateDevGas { allocations := [(1, 5)], gasUsed := 5 } 2 5 freshState 1 =
      some ({ allocations := [(1, 5)], gasUsed := 5 }, freshState) :=
  distribute_noop { allocations := [(1, 5)], gasUsed := 5 } 2 5 freshState 1
    (by decide)

/-- Claim C9: `AllocateDevGas` never modifies the ledger it reads: whenever it
returns, the returned tracker is exactly the input tracker (the source never
assigns to `gtm.gasUsed` or to the allocation map). -/
theorem distribute_ledger_frame (gtm : GasTracker) (gasPrice : Int)
    (refund : Nat) (state : StateDB) (timestamp : Nat) (g1 : GasTracker)
    (s1 : StateDB)
    (h : AllocateDevGas gtm gasPrice refund state timestamp = some (g1, s1)) :
    g1 = gtm := by
  simp only [AllocateDevGas] at h
  split_ifs at h with hc
  · injection h with h
    exact (congrArg Prod.fst h).symm
  · split at h
    · exact absurd h (by simp)
    · rename_i s2 tga agg heq
      by_cases hlt : gtm.gasUsed - refund < tga
      · rw [if_pos hlt] at h
        exact absurd h (by simp)
      · rw [if_neg hlt] at h
        injection h with h
        exact (congrArg Prod.fst h).symm

/-- Witness for C9 on a concrete no-op call. -/
theorem distribute_ledger_frame_witness :
    ({ allocations := [(1, 5)], gasUsed := 5 } : GasTracker) =
      { allocations := [(1, 5)], gasUsed := 5 } :=
  distribute_ledger_frame { allocations := [(1, 5)], gasUsed := 5 } 2 5
    freshState 1 { allocations := [(1, 5)], gasUsed := 5 } freshState rfl

/-! ## Accrual lemmas -/

theorem getState_setState_self (s : StateDB) (account : Addr) (slot : Slot)
    (v : List Nat) : GetState (SetState s account slot v) account slot = v := by
  simp [GetState, SetState]

theorem bytesToHash_of_len32 (b : List Nat) (h : b.length = 32) :
    BytesToHash b = b := by
  rw [BytesToHash, if_pos (by omega), h]
  simp

/-- Claim C8: `updateGasPredeploy` accrues `balance * (timestamp -
lastUpdated)` into `valueSeconds` using the pre-update balance, adds the fee
to the balance, and replaces the timestamp — whenever the updated fields fit
their encodable ranges, reading the record back returns exactly that updated
record.  Moreover, in the two-step Scenario C (address 1 opted in; gas price
2, five gas used, no refund, distribute at time 1; then gas price 3, two gas
used, distribute at time 2) address 1's record passes through balance 10 /
value-seconds 0 / time 1 and ends at balance 16 / value-seconds 10 / time 2. -/
theorem accrue_spec (state : StateDB) (a : Addr) (fee ts : Int)
    (gp : GasParameters)
    (hb0 : 0 ≤ gp.etherBalance + fee)
    (hb : gp.etherBalance + fee < 2 ^ 96)
    (hs0 : 0 ≤ gp.etherSeconds + gp.etherBalance * (ts - gp.lastUpdated))
    (hs : gp.etherSeconds + gp.etherBalance * (ts - gp.lastUpdated) < 2 ^ 120)
    (hl0 : 0 ≤ ts) (hl : ts < 2 ^ 32) :
    ((updateGasPredeploy state a fee ts gp).bind
        (fun s1 => readGasParameters s1 a) =
      some { mode := gp.mode, lastUpdated := ts,
             etherBalance := gp.etherBalance + fee,
             etherSeconds := gp.etherSeconds +
               gp.etherBalance * (ts - gp.lastUpdated) }) ∧
    ((do
        let s0 ← setGasMode freshState 1 1
        let r1 ← AllocateDevGas (UseGas NewGasTracker 1 5) 2 0 s0 1
        let mid ← readGasParameters r1.2 1
        let r2 ← AllocateDevGas (UseGas NewGasTracker 1 2) 3 0 r1.2 2
        let fin ← readGasParameters r2.2 1
        some (mid, fin)) =
      some ({ mode := true, lastUpdated := 1, etherBalance := 10,
              etherSeconds := 0 },
            { mode := true, lastUpdated := 2, etherBalance := 16,
              etherSeconds := 10 })) := by
  constructor
  · have hrt := pack_unpack (accrueRecord gp fee ts) hb0 hb hs0 hs hl0 hl
    rcases hp : pack (accrueRecord gp fee ts) with _ | bs
    · rw [hp] at hrt
      exact absurd hrt (by simp)
    · rw [hp, Option.some_bind] at hrt
      simp only [updateGasPredeploy, updateGasParameters, hp, Option.some_bind]
      rw [readGasParameters, getState_setState_self,
        bytesToHash_of_len32 bs (pack_length _ bs hp), hrt]
      rfl
  · decide

/-- Witness for C8 at a concrete record and fee. -/
theorem accrue_spec_witness :
    (updateGasPredeploy freshState 1 10 1
        { mode := true, lastUpdated := 0, etherBalance := 0,
          etherSeconds := 0 }).bind (fun s1 => readGasParameters s1 1) =
      some { mode := true, lastUpdated := 1, etherBalance := 10,
             etherSeconds := 0 } :=
  (accrue_spec freshState 1 10 1
    { mode := true, lastUpdated := 0, etherBalance := 0, etherSeconds := 0 }
    (by norm_num) (by norm_num) (by norm_num) (by norm_num) (by norm_num)
    (by norm_num)).1

/-! ## Order-independence lemmas -/

theorem StateDB.ext' (s1 s2 : StateDB) (hb : s1.balances = s2.balances)
    (hs : s1.storage = s2.storage) : s1 = s2 := by
  cases s1
  cases s2
  cases hb
  cases hs
  rfl

theorem setState_comm (s : StateDB) (account : Addr) (sl1 sl2 : Slot)
    (v1 v2 : List Nat) (h : sl1 ≠ sl2) :
    SetState (SetState s account sl1 v1) account sl2 v2 =
      SetState (SetState s account sl2 v2) account sl1 v1 := by
  refine StateDB.ext' _ _ rfl ?_
  funext a sl
  simp only [SetState]
  by_cases h2 : a = account ∧ sl = sl2
  · rw [if_pos h2, if_neg (show ¬(a = account ∧ sl = sl1) from
      fun h1 => h (h1.2.symm.trans h2.2)), if_pos h2]
  · rw [if_neg h2]
    by_cases h1 : a = account ∧ sl = sl1
    · rw [if_pos h1, if_pos h1]
    · rw [if_neg h1, if_neg h1, if_neg h2]

theorem slot_ne_of_addr_ne {a b : Addr} (hab : a ≠ b) :
    getContractStorageSlot a ≠ getContractStorageSlot b := by
  intro h
  exact hab (congrArg Prod.fst h)

theorem readGas_setState_ne (s : StateDB) (v : List Nat) (a b : Addr)
    (hab : a ≠ b) :
    readGasParameters (SetState s PatexGasAddress (getContractStorageSlot b) v)
      a = readGasParameters s a := by
  rw [readGasParameters, readGasParameters]
  congr 1
  show (if PatexGasAddress = PatexGasAddress ∧
      getContractStorageSlot a = getContractStorageSlot b then v
    else s.storage PatexGasAddress (getContractStorageSlot a)) =
    s.storage PatexGasAddress (getContractStorageSlot a)
  rw [if_neg]
  rintro ⟨-, h2⟩
  exact slot_ne_of_addr_ne hab h2

/-- The state-independent part of one allocation-loop iteration on an
opted-in record: fee-positivity check and encoding of the accrued record;
`none` is the encoding panic, `some none` no write, `some (some bs)` a write
of `bs` at the contract's slot. -/
def entryWrite (p ts : Int) (sc : Nat) (gp : GasParameters) :
    Option (Option (List Nat)) :=
  if 0 < (sc : Int) * p then
    match pack (accrueRecord gp ((sc : Int) * p) ts) with
    | none => none
    | some bs => some (some (BytesToHash bs))
  else some none

/-- Apply an optional cell write at a contract's slot. -/
def applyEntry (e : Addr × Nat) (w : Option (List Nat)) (s : StateDB) :
    StateDB :=
  match w with
  | none => s
  | some bs => SetState s PatexGasAddress (getContractStorageSlot e.1) bs

theorem stepNone (r t : Nat) (p ts : Int) (e : Addr × Nat) :
    allocStep r t p ts none e = none := rfl

theorem allocStep_read_none (r t : Nat) (p ts : Int) (s : StateDB)
    (tga agg : Nat) (e : Addr × Nat)
    (hg : readGasParameters s e.1 = none) :
    allocStep r t p ts (some (s, tga, agg)) e = none := by
  simp [allocStep, hg]

theorem allocStep_mode_false (r t : Nat) (p ts : Int) (s : StateDB)
    (tga agg : Nat) (e : Addr × Nat) (gp : GasParameters)
    (hg : readGasParameters s e.1 = some gp) (hm : gp.mode = false) :
    allocStep r t p ts (some (s, tga, agg)) e =
      some (s, tga + r * e.2 / t, agg) := by
  simp [allocStep, hg, hm]

theorem allocStep_ew_none (r t : Nat) (p ts : Int) (s : StateDB)
    (tga agg : Nat) (e : Addr × Nat) (gp : GasParameters)
    (hg : readGasParameters s e.1 = some gp) (hm : ¬gp.mode = false)
    (hw : entryWrite p ts (r * e.2 / t) gp = none) :
    allocStep r t p ts (some (s, tga, agg)) e = none := by
  rw [entryWrite] at hw
  split_ifs at hw with hf
  simp only [allocStep, hg, hm, if_false]
  rw [if_pos hf]
  rcases hp : pack (accrueRecord gp (((r * e.2 / t : Nat) : Int) * p) ts)
    with _ | bs
  · simp only [updateGasPredeploy, updateGasParameters, hp]
    simp
  · rw [hp] at hw
    exact absurd hw (by simp)

theorem allocStep_ew_some (r t : Nat) (p ts : Int) (s : StateDB)
    (tga agg : Nat) (e : Addr × Nat) (gp : GasParameters)
    (w : Option (List Nat))
    (hg : readGasParameters s e.1 = some gp) (hm : ¬gp.mode = false)
    (hw : entryWrite p ts (r * e.2 / t) gp = some w) :
    allocStep r t p ts (some (s, tga, agg)) e =
      some (applyEntry e w s, tga + r * e.2 / t, agg + r * e.2 / t) := by
  rw [entryWrite] at hw
  split_ifs at hw with hf
  · rcases hp : pack (accrueRecord gp (((r * e.2 / t : Nat) : Int) * p) ts)
      with _ | bs
    · rw [hp] at hw
      exact absurd hw (by simp)
    · rw [hp] at hw
      injection hw with hw
      simp only [allocStep, hg, hm, if_false]
      rw [if_pos hf]
      simp only [updateGasPredeploy, updateGasParameters, hp]
      rw [← hw]
      rfl
  · injection hw with hw
    simp only [allocStep, hg, hm, if_false]
    rw [if_neg hf, ← hw]
    rfl

theorem applyEntry_read_ne (e : Addr × Nat) (w : Option (List Nat))
    (s : StateDB) (a : Addr) (hne : a ≠ e.1) :
    readGasParameters (applyEntry e w s) a = readGasParameters s a := by
  rcases w with _ | bs
  · rfl
  · exact readGas_setState_ne s bs a e.1 hne

theorem applyEntry_comm (x y : Addr × Nat) (wx wy : Option (List Nat))
    (s : StateDB) (hne : x.1 ≠ y.1) :
    applyEntry x wx (applyEntry y wy s) =
      applyEntry y wy (applyEntry x wx s) := by
  rcases wx with _ | bsx <;> rcases wy with _ | bsy
  · rfl
  · rfl
  · rfl
  · simp only [applyEntry]
    exact setState_comm s PatexGasAddress (getContractStorageSlot y.1)
      (getContractStorageSlot x.1) bsy bsx
      (slot_ne_of_addr_ne (fun h => hne h.symm))

theorem allocStep_comm (r t : Nat) (p ts : Int) (x y : Addr × Nat)
    (hxy : x.1 ≠ y.1) (z : Option (StateDB × Nat × Nat)) :
    allocStep r t p ts (allocStep r t p ts z x) y =
      allocStep r t p ts (allocStep r t p ts z y) x := by
  rcases z with _ | ⟨s, tga, agg⟩
  · rfl
  have hyx : y.1 ≠ x.1 := fun h => hxy h.symm
  rcases hgx : readGasParameters s x.1 with _ | gx
  · rw [allocStep_read_none r t p ts s tga agg x hgx, stepNone]
    rcases hgy : readGasParameters s y.1 with _ | gy
    · rw [allocStep_read_none r t p ts s tga agg y hgy, stepNone]
    · by_cases hmy : gy.mode = false
      · rw [allocStep_mode_false r t p ts s tga agg y gy hgy hmy,
          allocStep_read_none r t p ts s _ _ x hgx]
      · rcases hwy : entryWrite p ts (r * y.2 / t) gy with _ | wy
        · rw [allocStep_ew_none r t p ts s tga agg y gy hgy hmy hwy, stepNone]
        · rw [allocStep_ew_some r t p ts s tga agg y gy wy hgy hmy hwy,
            allocStep_read_none r t p ts _ _ _ x
              ((applyEntry_read_ne y wy s x.1 hxy).trans hgx)]
  · by_cases hmx : gx.mode = false
    · rw [allocStep_mode_false r t p ts s tga agg x gx hgx hmx]
      rcases hgy : readGasParameters s y.1 with _ | gy
      · rw [allocStep_read_none r t p ts s _ _ y hgy,
          allocStep_read_none r t p ts s tga agg y hgy, stepNone]
      · by_cases hmy : gy.mode = false
        · rw [allocStep_mode_false r t p ts s _ _ y gy hgy hmy,
            allocStep_mode_false r t p ts s tga agg y gy hgy hmy,
            allocStep_mode_false r t p ts s _ _ x gx hgx hmx,
            Nat.add_right_comm]
        · rcases hwy : entryWrite p ts (r * y.2 / t) gy with _ | wy
          · rw [allocStep_ew_none r t p ts s _ _ y gy hgy hmy hwy,
              allocStep_ew_none r t p ts s tga agg y gy hgy hmy hwy, stepNone]
          · rw [allocStep_ew_some r t p ts s _ _ y gy wy hgy hmy hwy,
              allocStep_ew_some r t p ts s tga agg y gy wy hgy hmy hwy,
              allocStep_mode_false r t p ts _ _ _ x gx
                ((applyEntry_read_ne y wy s x.1 hxy).trans hgx) hmx,
              Nat.add_right_comm]
    · rcases hwx : entryWrite p ts (r * x.2 / t) gx with _ | wx
      · rw [allocStep_ew_none r t p ts s tga agg x gx hgx hmx hwx, stepNone]
        rcases hgy : readGasParameters s y.1 with _ | gy
        · rw [allocStep_read_none r t p ts s tga agg y hgy, stepNone]
        · by_cases hmy : gy.mode = false
          · rw [allocStep_mode_false r t p ts s tga agg y gy hgy hmy,
              allocStep_ew_none r t p ts s _ _ x gx hgx hmx hwx]
          · rcases hwy : entryWrite p ts (r * y.2 / t) gy with _ | wy
            · rw [allocStep_ew_none r t p ts s tga agg y gy hgy hmy hwy,
                stepNone]
            · rw [allocStep_ew_some r t p ts s tga agg y gy wy hgy hmy hwy,
                allocStep_ew_none r t p ts _ _ _ x gx
                  ((applyEntry_read_ne y wy s x.1 hxy).trans hgx) hmx hwx]
      · rw [allocStep_ew_some r t p ts s tga agg x gx wx hgx hmx hwx]
        rcases hgy : readGasParameters s y.1 with _ | gy
        · rw [allocStep_read_none r t p ts _ _ _ y
              ((applyEntry_read_ne x wx s y.1 hyx).trans hgy),
            allocStep_read_none r t p ts s tga agg y hgy, stepNone]
        · by_cases hmy : gy.mode = false
          · rw [allocStep_mode_false r t p ts _ _ _ y gy
                ((applyEntry_read_ne x wx s y.1 hyx).trans hgy) hmy,
              allocStep_mode_false r t p ts s tga agg y gy hgy hmy,
              allocStep_ew_some r t p ts s _ _ x gx wx hgx hmx hwx,
              Nat.add_right_comm]
          · rcases hwy : entryWrite p ts (r * y.2 / t) gy with _ | wy
            · rw [allocStep_ew_none r t p ts _ _ _ y gy
                  ((applyEntry_read_ne x wx s y.1 hyx).trans hgy) hmy hwy,
                allocStep_ew_none r t p ts s tga agg y gy hgy hmy hwy,
                stepNone]
            · rw [allocStep_ew_some r t p ts _ _ _ y gy wy
                  ((applyEntry_read_ne x wx s y.1 hyx).trans hgy) hmy hwy,
                allocStep_ew_some r t p ts s tga agg y gy wy hgy hmy hwy,
                allocStep_ew_some r t p ts _ _ _ x gx wx
                  ((applyEntry_read_ne y wy s x.1 hxy).trans hgx) hmx hwx,
                applyEntry_comm y x wy wx s hyx,
                Nat.add_right_comm tga (r * x.2 / t) (r * y.2 / t),
                Nat.add_right_comm agg (r * x.2 / t) (r * y.2 / t)]

theorem nodup_key_eq {l : List (Addr × Nat)}
    (hnd : (l.map Prod.fst).Nodup) {x y : Addr × Nat}
    (hx : x ∈ l) (hy : y ∈ l) (hk : x.1 = y.1) : x = y := by
  induction l with
  | nil => cases hx
  | cons e l ih =>
      rw [List.map_cons, List.nodup_cons] at hnd
      rcases List.mem_cons.mp hx with hx1 | hx2 <;>
        rcases List.mem_cons.mp hy with hy1 | hy2
      · rw [hx1, hy1]
      · subst hx1
        refine absurd ?_ hnd.1
        rw [hk]
        exact List.mem_map_of_mem Prod.fst hy2
      · subst hy1
        refine absurd ?_ hnd.1
        rw [← hk]
        exact List.mem_map_of_mem Prod.fst hx2
      · exact ih hnd.2 hx2 hy2

/-- Claim C7: on a ledger whose allocation keys are pairwise distinct (a map),
running `AllocateDevGas` with any permutation of the iteration order over the
allocations yields the same outcome — the identical final `StateDB`, hence the
same account balances and the same per-contract accrual records (or the same
abort). -/
theorem distribute_order_independent (gtm : GasTracker)
    (l2 : List (Addr × Nat)) (gasPrice : Int) (refund : Nat) (state : StateDB)
    (timestamp : Nat) (hperm : gtm.allocations.Perm l2)
    (hnd : (gtm.allocations.map Prod.fst).Nodup) :
    (AllocateDevGas gtm gasPrice refund state timestamp).map Prod.snd =
      (AllocateDevGas { allocations := l2, gasUsed := gtm.gasUsed } gasPrice
        refund state timestamp).map Prod.snd := by
  have hfold : ∀ init : Option (StateDB × Nat × Nat),
      gtm.allocations.foldl (allocStep (gtm.gasUsed - refund) gtm.gasUsed
        gasPrice (timestamp : Int)) init =
      l2.foldl (allocStep (gtm.gasUsed - refund) gtm.gasUsed gasPrice
        (timestamp : Int)) init := by
    intro init
    refine hperm.foldl_eq' ?_ init
    intro x hx y hy z
    by_cases hxy : x = y
    · rw [hxy]
    · exact allocStep_comm _ _ _ _ x y
        (fun h => hxy (nodup_key_eq hnd hx hy h)) z
  simp only [AllocateDevGas]
  split_ifs with hc
  · rfl
  · rw [hfold]
    rcases l2.foldl (allocStep (gtm.gasUsed - refund) gtm.gasUsed gasPrice
        (timestamp : Int)) (some (state, 0, 0)) with _ | ⟨s2, tga, agg⟩
    · rfl
    · by_cases hlt : gtm.gasUsed - refund < tga <;> simp [hlt]

/-- Witness for C7 on a concrete two-entry ledger and a transposition. -/
theorem distribute_order_independent_witness :
    (AllocateDevGas { allocations := [(1, 3), (2, 4)], gasUsed := 7 } 1 0
        freshState 1).map Prod.snd =
      (AllocateDevGas { allocations := [(2, 4), (1, 3)], gasUsed := 7 } 1 0
        freshState 1).map Prod.snd :=
  distribute_order_independent
    { allocations := [(1, 3), (2, 4)], gasUsed := 7 } [(2, 4), (1, 3)] 1 0
    freshState 1 (by decide) (by decide)

end PatexGas
